import Mathlib

/-!
Shallow embedding of the snakemake task-provider extension
(`src/extension.ts`): substring-based task classification, the
`snakemake --list` discovery pipeline (`getSnakemakeTasks`), and the
promise-caching coordinator installed by `activate`.
-/

namespace Snakemake

/-- Does the list `pat` occur as a leading segment of `text`?
Mirrors the character-by-character comparison JavaScript's
`String.prototype.indexOf` performs at one candidate position. -/
def startsWithL : List Char → List Char → Bool
  | _, [] => true
  | [], _ :: _ => false
  | a :: as, b :: bs => a = b && startsWithL as bs

/-- Does `pat` occur anywhere inside `text`?  `name.indexOf(pat) !== -1`
in the source is exactly this occurrence test. -/
def containsL (text pat : List Char) : Bool :=
  startsWithL text pat ||
    match text with
    | [] => false
    | _ :: t => containsL t pat

/-- String-level wrapper for `containsL`: `s.indexOf(sub) !== -1`. -/
def hasSubstr (s sub : String) : Bool :=
  containsL s.data sub.data

/-- The static list `buildNames` from the source. -/
def buildNames : List String := ["build", "compile", "watch"]

/-- The `isBuildTask` helper from the source: a for-loop over
`buildNames` returning true on the first `indexOf` hit. -/
def isBuildTask (name : String) : Bool :=
  buildNames.any (fun b => hasSubstr name b)

/-- The static list `testNames` from the source. -/
def testNames : List String := ["test"]

/-- The `isTestTask` helper from the source. -/
def isTestTask (name : String) : Bool :=
  testNames.any (fun t => hasSubstr name t)

/-- Task classification values: the possible `task.group` assignments
(`vscode.TaskGroup.Build`, `vscode.TaskGroup.Test`, or no group). -/
inductive Classification
  | Build
  | Test
  | None
  deriving DecidableEq, Repr

/-- The classification rule the spec describes, assembled from the
source helpers `isBuildTask` and `isTestTask` with Build checked before
Test.  The source defines both helpers but -- see `mkTask` -- never
calls them. -/
def specClassification (name : String) : Classification :=
  if isBuildTask name then Classification.Build
  else if isTestTask name then Classification.Test
  else Classification.None

/-- One constructed `vscode.Task`: its name, the shell command string of
its `ShellExecution`, and the task group assigned to it. -/
structure SnakemakeTask where
  taskName : String
  commandLine : String
  group : Classification
  deriving DecidableEq, Repr

/-- Task construction from one non-empty output line, mirroring source
lines 127-134: the name is the whole line, the shell command is the
template literal `snakemake $\x7btaskName\x7d`, and the group is set to
`vscode.TaskGroup.Build` unconditionally. -/
def mkTask (taskName : String) : SnakemakeTask :=
  { taskName := taskName
    commandLine := "snakemake " ++ taskName
    group := Classification.Build }

/-- Core of `stdout.split(/\r\x7b0,1\x7d\n/)`: scan the characters,
closing the current line at each `\n` and at each `\r` immediately
followed by `\n`; a `\r` not followed by `\n` is an ordinary character,
as for the JavaScript regular expression. -/
def splitLinesAux (acc : List Char) : List Char → List String
  | [] => [String.mk acc.reverse]
  | c :: rest =>
    if c = '\n' then String.mk acc.reverse :: splitLinesAux [] rest
    else if c = '\r' then
      match rest with
      | '\n' :: rest2 => String.mk acc.reverse :: splitLinesAux [] rest2
      | [] => splitLinesAux (c :: acc) []
      | c2 :: rest2 => splitLinesAux (c :: acc) (c2 :: rest2)
    else splitLinesAux (c :: acc) rest

/-- `stdout.split(/\r\x7b0,1\x7d\n/)` from source line 121. -/
def splitLines (s : String) : List String :=
  splitLinesAux [] s.data

/-- Source lines 120-135 reduced to the produced task names: if `stdout`
is falsy (empty) there are no lines; otherwise split into lines and skip
the zero-length ones, keeping each surviving line verbatim. -/
def parseTaskNames (stdout : String) : List String :=
  if stdout = "" then []
  else (splitLines stdout).filter (fun line => line.length != 0)

/-- Success value of `exec`: the captured output streams. -/
structure ExecOk where
  stdout : String
  stderr : String
  deriving DecidableEq, Repr

/-- Rejection value of `exec`: the captured output streams delivered
with the error object. -/
structure ExecErr where
  stdout : String
  stderr : String
  deriving DecidableEq, Repr

/-- The `exec` wrapper (source lines 50-59): the child-process callback
receives an error flag plus both captured streams; a set error rejects
with both streams attached, otherwise both streams are returned, with no
condition placed on `stderr`. -/
def exec (fails : Bool) (stdout stderr : String) : Except ExecErr ExecOk :=
  if fails then Except.error { stdout := stdout, stderr := stderr }
  else Except.ok { stdout := stdout, stderr := stderr }

/-- Environment one discovery pass observes: the workspace root read at
the start of the pass, whether `Snakefile` exists in it, and the
child-process outcome that `snakemake --list` would produce. -/
structure Env where
  rootPath : Option String
  snakefileExists : Bool
  execFails : Bool
  execStdout : String
  execStderr : String

/-- Observable result of one `getSnakemakeTasks` pass: the resolved task
list, the lines appended to the output channel in order, whether the
channel was revealed, whether the `Snakefile` existence check ran, and
whether the external tool was invoked.  The function is total: the
source catches the rejection of `exec` and always resolves. -/
structure DiscoveryOutcome where
  tasks : List SnakemakeTask
  logLines : List String
  revealed : Bool
  checkedFileExists : Bool
  invokedTool : Bool
  deriving DecidableEq, Repr

/-- The fixed diagnostic line from source line 146. -/
def failureMessage : String := "Auto detecting Snakemake tasts failed."

/-- `getSnakemakeTasks` (source lines 101-150).  Reads the workspace
root afresh; missing root or missing `Snakefile` resolve to the empty
list without invoking the tool.  On a successful invocation a non-empty
stderr is logged and the channel revealed; stdout is parsed into tasks.
On a rejected invocation the truthy streams are logged stderr first,
then the fixed diagnostic, the channel is revealed, and the empty list
is resolved. -/
def getSnakemakeTasks (env : Env) : DiscoveryOutcome :=
  match env.rootPath with
  | Option.none =>
    { tasks := [], logLines := [], revealed := false,
      checkedFileExists := false, invokedTool := false }
  | Option.some _root =>
    if env.snakefileExists = false then
      { tasks := [], logLines := [], revealed := false,
        checkedFileExists := true, invokedTool := false }
    else
      match exec env.execFails env.execStdout env.execStderr with
      | Except.ok r =>
        { tasks := (parseTaskNames r.stdout).map mkTask
          logLines := if r.stderr.length > 0 then [r.stderr] else []
          revealed := r.stderr.length > 0
          checkedFileExists := true
          invokedTool := true }
      | Except.error e =>
        { tasks := []
          logLines :=
            (if e.stderr = "" then [] else [e.stderr]) ++
            (if e.stdout = "" then [] else [e.stdout]) ++ [failureMessage]
          revealed := true
          checkedFileExists := true
          invokedTool := true }

/-- Observable result of `activate` (source lines 12-34): whether the
file watcher and the task provider were registered. -/
structure ActivationOutcome where
  watcherRegistered : Bool
  providerRegistered : Bool
  deriving DecidableEq, Repr

/-- `activate`: with no workspace root it returns before registering
anything; otherwise it registers the `Snakefile` watcher and the task
provider. -/
def activate (rootPath : Option String) : ActivationOutcome :=
  match rootPath with
  | Option.none => { watcherRegistered := false, providerRegistered := false }
  | Option.some _ => { watcherRegistered := true, providerRegistered := true }

/-- Coordinator state from `activate`: the `snakemakePromise` cache slot
holds the identifier of a started discovery computation or nothing.
`nextId` numbers discovery computations in creation order, `started`
counts how many were started, and `resolvedIds` records which started
computations have completed. -/
structure CoordState where
  slot : Option Nat
  nextId : Nat
  started : Nat
  resolvedIds : List Nat
  deriving DecidableEq, Repr

/-- The coordinator state right after activation: empty cache slot,
nothing started. -/
def initState : CoordState :=
  { slot := Option.none, nextId := 0, started := 0, resolvedIds := [] }

/-- `provideTasks` (source lines 24-29): if the slot is empty, start a
new discovery computation and store its pending promise synchronously
before returning it; otherwise return the stored promise.  The returned
`Nat` identifies the computation the caller awaits. -/
def provideTasks (s : CoordState) : CoordState × Nat :=
  match s.slot with
  | Option.some i => (s, i)
  | Option.none =>
    ({ s with slot := Option.some s.nextId, nextId := s.nextId + 1,
              started := s.started + 1 },
     s.nextId)

/-- Events the coordinator reacts to: a task-list request, the three
file-watcher notifications (source lines 20-22), and the completion of a
started discovery computation. -/
inductive Event
  | request
  | changed
  | created
  | deleted
  | resolve (i : Nat)
  deriving DecidableEq, Repr

/-- One coordinator step.  Each of the three watcher notifications sets
`snakemakePromise = undefined`; a request goes through `provideTasks`;
a resolution marks a computation completed without touching the slot. -/
def coordStep (s : CoordState) : Event → CoordState
  | Event.request => (provideTasks s).1
  | Event.changed => { s with slot := Option.none }
  | Event.created => { s with slot := Option.none }
  | Event.deleted => { s with slot := Option.none }
  | Event.resolve i =>
    if i ∈ s.resolvedIds then s else { s with resolvedIds := i :: s.resolvedIds }

/-- Run a sequence of events from a state. -/
def runTrace (s : CoordState) : List Event → CoordState
  | [] => s
  | e :: es => runTrace (coordStep s e) es

/-- Number of discovery computations started but not yet resolved: each
such computation holds an unfinished external-tool invocation (for an
environment in which the tool is actually invoked). -/
def inflightCount (s : CoordState) : Nat :=
  ((List.range s.nextId).filter (fun i => decide (i ∉ s.resolvedIds))).length

/-- Is an event one of the three watcher notifications? -/
def isInvalidation : Event → Bool
  | Event.changed => true
  | Event.created => true
  | Event.deleted => true
  | _ => false

/-- Does every watcher notification in the trace arrive while no
discovery computation is in flight?  Checked at the state in force when
the notification occurs. -/
def invalidationsIdle (s : CoordState) : List Event → Bool
  | [] => true
  | e :: es =>
    (!(isInvalidation e) || inflightCount s == 0) &&
      invalidationsIdle (coordStep s e) es

/-- Characters of a tool output built from the given lines, each line
terminated by CRLF (flag true) or by a bare LF (flag false). -/
def joinMixedChars : List (String × Bool) → List Char
  | [] => []
  | (l, b) :: rest =>
    l.data ++ (if b then ['\r', '\n'] else ['\n']) ++ joinMixedChars rest

/-- Tool output built from terminated lines with a per-line choice of
line ending. -/
def joinMixed (ps : List (String × Bool)) : String :=
  String.mk (joinMixedChars ps)

/-- Unfolding step: a bare `\n` closes the accumulated line. -/
lemma splitLinesAux_nl (acc rest : List Char) :
    splitLinesAux acc ('\n' :: rest) =
      String.mk acc.reverse :: splitLinesAux [] rest := by
  rw [splitLinesAux.eq_def]; simp

/-- Unfolding step: a `\r` immediately followed by `\n` closes the
accumulated line and consumes both characters. -/
lemma splitLinesAux_crnl (acc rest : List Char) :
    splitLinesAux acc ('\r' :: '\n' :: rest) =
      String.mk acc.reverse :: splitLinesAux [] rest := by
  rw [splitLinesAux.eq_def]; simp

/-- Unfolding step: any other character is accumulated into the current
line. -/
lemma splitLinesAux_other (c : Char) (h1 : c ≠ '\n') (h2 : c ≠ '\r')
    (acc rest : List Char) :
    splitLinesAux acc (c :: rest) = splitLinesAux (c :: acc) rest := by
  rw [splitLinesAux.eq_def]
  simp only [if_neg h1, if_neg h2]

/-- Scanning a line free of line-break characters up to its terminator
(either ending) emits exactly that line and continues on the remainder. -/
lemma splitLinesAux_line (xs : List Char) (b : Bool) (rest : List Char)
    (h : ∀ c ∈ xs, c ≠ '\n' ∧ c ≠ '\r') (acc : List Char) :
    splitLinesAux acc (xs ++ (if b then ['\r', '\n'] else ['\n']) ++ rest) =
      String.mk (acc.reverse ++ xs) :: splitLinesAux [] rest := by
  induction xs generalizing acc with
  | nil =>
    cases b <;> simp [splitLinesAux_nl, splitLinesAux_crnl]
  | cons x xs ih =>
    have hx : x ≠ '\n' ∧ x ≠ '\r' := h x (List.mem_cons_self x xs)
    have hxs : ∀ c ∈ xs, c ≠ '\n' ∧ c ≠ '\r' :=
      fun c hc => h c (List.mem_cons_of_mem x hc)
    rw [List.cons_append, List.cons_append,
      splitLinesAux_other x hx.1 hx.2, ih hxs (x :: acc)]
    simp

/-- Scanning a fully terminated output yields the lines followed by one
final empty piece, exactly as the JavaScript `split` call does. -/
lemma splitLinesAux_join (ps : List (String × Bool))
    (h : ∀ p ∈ ps, ∀ c ∈ p.1.data, c ≠ '\n' ∧ c ≠ '\r') :
    splitLinesAux [] (joinMixedChars ps) = ps.map Prod.fst ++ [""] := by
  induction ps with
  | nil =>
    simp [joinMixedChars, splitLinesAux]
  | cons p ps ih =>
    obtain ⟨l, b⟩ := p
    have hl : ∀ c ∈ l.data, c ≠ '\n' ∧ c ≠ '\r' := h (l, b) (List.mem_cons_self _ _)
    have hps : ∀ q ∈ ps, ∀ c ∈ q.1.data, c ≠ '\n' ∧ c ≠ '\r' :=
      fun q hq => h q (List.mem_cons_of_mem _ hq)
    simp only [joinMixedChars]
    rw [splitLinesAux_line l.data b (joinMixedChars ps) hl []]
    rw [ih hps]
    simp

/-- Parsing a fully terminated output recovers each emitted line
verbatim, with zero-length lines skipped. -/
lemma parseTaskNames_join (ps : List (String × Bool))
    (h : ∀ p ∈ ps, ∀ c ∈ p.1.data, c ≠ '\n' ∧ c ≠ '\r') :
    parseTaskNames (joinMixed ps) =
      (ps.map Prod.fst).filter (fun l => l.length != 0) := by
  cases ps with
  | nil => rfl
  | cons p ps =>
    have hne : joinMixed (p :: ps) ≠ "" := by
      intro heq
      have hdata : joinMixedChars (p :: ps) = [] := by
        have := congrArg String.data heq
        simpa [joinMixed] using this
      obtain ⟨l, b⟩ := p
      cases b <;> simp [joinMixedChars] at hdata
    rw [parseTaskNames, if_neg hne]
    have hsplit : splitLines (joinMixed (p :: ps)) =
        (p :: ps).map Prod.fst ++ [""] := splitLinesAux_join (p :: ps) h
    rw [hsplit]
    have hempty : List.filter (fun line => line.length != 0) ([""] : List String) = [] := by
      decide
    rw [List.filter_append, hempty, List.append_nil]

/-- Resolving a computation never increases the number of unresolved
ones. -/
lemma inflightCount_resolve (s : CoordState) (i : Nat) :
    inflightCount (coordStep s (Event.resolve i)) ≤ inflightCount s := by
  rw [coordStep]
  split
  · exact Nat.le_refl _
  · refine List.Sublist.length_le (List.monotone_filter_right _ ?_)
    intro j hj
    rw [decide_eq_true_eq] at hj ⊢
    intro hmem
    exact hj (List.mem_cons_of_mem _ hmem)

/-- Resolving a computation leaves the cache slot untouched. -/
lemma coordStep_resolve_slot (s : CoordState) (i : Nat) :
    (coordStep s (Event.resolve i)).slot = s.slot := by
  rw [coordStep]
  split <;> rfl

/-- A request finding the cache slot empty starts at most one new
computation. -/
lemma inflightCount_request (s : CoordState) (hs : s.slot = Option.none) :
    inflightCount (coordStep s Event.request) ≤ inflightCount s + 1 := by
  have hstep : coordStep s Event.request =
      { s with slot := Option.some s.nextId, nextId := s.nextId + 1,
               started := s.started + 1 } := by
    simp [coordStep, provideTasks, hs]
  rw [hstep, inflightCount, inflightCount]
  dsimp only
  rw [List.range_succ, List.filter_append, List.length_append]
  have hone : (List.filter
      (fun i => decide (i ∉ s.resolvedIds)) [s.nextId]).length ≤ 1 :=
    List.length_filter_le _ _
  omega

/-- Inflight-bound invariant of the coordinator: along any trace whose
watcher notifications all arrive while nothing is in flight, a state
with at most one unresolved computation — and none when the slot is
empty — keeps at most one computation in flight. -/
lemma coord_idle_invariant (tr : List Event) (s : CoordState)
    (htr : invalidationsIdle s tr = true)
    (h1 : inflightCount s ≤ 1)
    (h2 : s.slot = Option.none → inflightCount s = 0) :
    inflightCount (runTrace s tr) ≤ 1 := by
  induction tr generalizing s with
  | nil => exact h1
  | cons e es ih =>
    rw [invalidationsIdle, Bool.and_eq_true] at htr
    obtain ⟨hte, htes⟩ := htr
    rw [runTrace]
    cases e with
    | request =>
      cases hslot : s.slot with
      | none =>
        have h0 := h2 hslot
        have hg1 : inflightCount (coordStep s Event.request) ≤ 1 := by
          have := inflightCount_request s hslot
          omega
        have hg2 : (coordStep s Event.request).slot = Option.none →
            inflightCount (coordStep s Event.request) = 0 := by
          intro hcontra
          simp [coordStep, provideTasks, hslot] at hcontra
        exact ih (coordStep s Event.request) htes hg1 hg2
      | some i =>
        have hid : coordStep s Event.request = s := by
          simp [coordStep, provideTasks, hslot]
        rw [hid] at htes ⊢
        exact ih s htes h1 h2
    | changed =>
      have h0 : inflightCount s = 0 := by
        simp [isInvalidation] at hte
        exact hte
      have hg1 : inflightCount (coordStep s Event.changed) ≤ 1 := by
        have heq : inflightCount (coordStep s Event.changed) =
            inflightCount s := rfl
        omega
      exact ih (coordStep s Event.changed) htes hg1 (fun _ => h0)
    | created =>
      have h0 : inflightCount s = 0 := by
        simp [isInvalidation] at hte
        exact hte
      have hg1 : inflightCount (coordStep s Event.created) ≤ 1 := by
        have heq : inflightCount (coordStep s Event.created) =
            inflightCount s := rfl
        omega
      exact ih (coordStep s Event.created) htes hg1 (fun _ => h0)
    | deleted =>
      have h0 : inflightCount s = 0 := by
        simp [isInvalidation] at hte
        exact hte
      have hg1 : inflightCount (coordStep s Event.deleted) ≤ 1 := by
        have heq : inflightCount (coordStep s Event.deleted) =
            inflightCount s := rfl
        omega
      exact ih (coordStep s Event.deleted) htes hg1 (fun _ => h0)
    | resolve i =>
      have hdec := inflightCount_resolve s i
      have hg1 : inflightCount (coordStep s (Event.resolve i)) ≤ 1 := by
        omega
      have hg2 : (coordStep s (Event.resolve i)).slot = Option.none →
          inflightCount (coordStep s (Event.resolve i)) = 0 := by
        intro hslot
        rw [coordStep_resolve_slot] at hslot
        have := h2 hslot
        omega
      exact ih (coordStep s (Event.resolve i)) htes hg1 hg2

/-- C1: the claim says a discovered task is classified Build when its
name contains "build", "compile" or "watch", else Test when it contains
"test", else None.  The source defines exactly those substring helpers
(`isBuildTask`, `isTestTask`) but never calls them: every constructed
task gets `vscode.TaskGroup.Build`.  Evaluated at the failing inputs,
"cleanup" (neither substring) and "run_tests" ("test" substring) are
both produced with group Build, while the helper-based rule gives None
and Test. -/
theorem C1_classification_code_bug :
    isBuildTask "cleanup" = false ∧ isTestTask "cleanup" = false ∧
    isTestTask "run_tests" = true ∧
    specClassification "cleanup" = Classification.None ∧
    specClassification "run_tests" = Classification.Test ∧
    (getSnakemakeTasks
        ⟨Option.some "/ws", true, false, "run_tests\ncleanup\n", ""⟩).tasks.map
      SnakemakeTask.group = [Classification.Build, Classification.Build] := by
  decide

/-- C2: for stdout "build_all\nrun_tests\ncleanup\n" the claim expects
three tasks named build_all, run_tests, cleanup with classifications
Build, Test, None.  The code produces exactly those names in emitted
order but assigns the Build group to all three; the helper-based rule of
the spec would have given Build, Test, None. -/
theorem C2_example_code_bug :
    (getSnakemakeTasks ⟨Option.some "/ws", true, false,
        "build_all\nrun_tests\ncleanup\n", ""⟩).tasks.map
      SnakemakeTask.taskName = ["build_all", "run_tests", "cleanup"] ∧
    (getSnakemakeTasks ⟨Option.some "/ws", true, false,
        "build_all\nrun_tests\ncleanup\n", ""⟩).tasks.map
      SnakemakeTask.group =
        [Classification.Build, Classification.Build, Classification.Build] ∧
    ["build_all", "run_tests", "cleanup"].map specClassification =
      [Classification.Build, Classification.Test, Classification.None] := by
  decide

/-- C3: when the tool invocation fails, discovery appends the captured
stderr then the captured stdout to the log sink, appends the fixed
diagnostic message, reveals the sink, and resolves with the empty task
list; the embedded `getSnakemakeTasks` is a total function into
`DiscoveryOutcome`, so the failure is never propagated as an error. -/
theorem C3_failure_degrades (r so se : String) (hse : se ≠ "") (hso : so ≠ "") :
    (getSnakemakeTasks ⟨Option.some r, true, true, so, se⟩).tasks = [] ∧
    (getSnakemakeTasks ⟨Option.some r, true, true, so, se⟩).logLines =
      [se, so, failureMessage] ∧
    (getSnakemakeTasks ⟨Option.some r, true, true, so, se⟩).revealed = true := by
  simp [getSnakemakeTasks, exec, hse, hso]

/-- Witness for C3 at the spec's failure scenario, stderr
"rule not found". -/
theorem C3_failure_degrades_witness :
    (getSnakemakeTasks
        ⟨Option.some "/ws", true, true, "out", "rule not found"⟩).tasks = [] ∧
    (getSnakemakeTasks
        ⟨Option.some "/ws", true, true, "out", "rule not found"⟩).logLines =
      ["rule not found", "out", failureMessage] ∧
    (getSnakemakeTasks
        ⟨Option.some "/ws", true, true, "out", "rule not found"⟩).revealed =
      true :=
  C3_failure_degrades "/ws" "out" "rule not found" (by decide) (by decide)

/-- C4 counterexample: the claim's invariant that at most one discovery
invocation is in flight at any time fails on the code, because a watcher
notification clears the cache slot without cancelling the in-flight
computation: after request, change notification, request, two started
computations are unresolved simultaneously. -/
theorem C4_two_invocations_in_flight :
    inflightCount
      (runTrace initState [Event.request, Event.changed, Event.request]) = 2 := by
  decide

/-- C4 (amended): a request finding the slot empty stores the new
computation synchronously and returns its identifier; a second request
while the slot holds that computation returns the same identifier
without starting another invocation (so concurrent callers await the
same outcome); and on every trace whose watcher invalidations all occur
while no computation is in flight, at most one discovery invocation is
ever in flight. -/
theorem C4_single_flight :
    (∀ s : CoordState, s.slot = Option.none →
      (provideTasks s).2 = s.nextId ∧
      (provideTasks ((provideTasks s).1)).2 = (provideTasks s).2 ∧
      (provideTasks ((provideTasks s).1)).1.started = s.started + 1) ∧
    (∀ (s : CoordState) (i : Nat), s.slot = Option.some i →
      (provideTasks s).1 = s ∧ (provideTasks s).2 = i) ∧
    (∀ tr : List Event, invalidationsIdle initState tr = true →
      inflightCount (runTrace initState tr) ≤ 1) := by
  refine ⟨?_, ?_, ?_⟩
  · intro s hs
    simp [provideTasks, hs]
  · intro s i hs
    simp [provideTasks, hs]
  · intro tr htr
    exact coord_idle_invariant tr initState htr (by decide) (fun _ => by decide)

/-- Witness for C4 on concrete states and a concrete trace whose one
watcher invalidation arrives after the only started computation has
resolved. -/
theorem C4_single_flight_witness :
    (provideTasks initState).2 = initState.nextId ∧
    inflightCount
      (runTrace initState [Event.request, Event.resolve 0, Event.changed,
        Event.request]) ≤ 1 :=
  ⟨(C4_single_flight.1 initState rfl).1,
    C4_single_flight.2.2
      [Event.request, Event.resolve 0, Event.changed, Event.request]
      (by decide)⟩

/-- C5: each of the three watcher notifications (changed, created,
deleted) empties the cache slot, and a request arriving right after any
of them starts a fresh discovery computation — incrementing the started
counter — even though a previous computation may still be stored
resolved in the slot beforehand. -/
theorem C5_invalidation_resets (s : CoordState) :
    ((coordStep s Event.changed).slot = Option.none ∧
      (provideTasks (coordStep s Event.changed)).1.started = s.started + 1) ∧
    ((coordStep s Event.created).slot = Option.none ∧
      (provideTasks (coordStep s Event.created)).1.started = s.started + 1) ∧
    ((coordStep s Event.deleted).slot = Option.none ∧
      (provideTasks (coordStep s Event.deleted)).1.started = s.started + 1) :=
  ⟨⟨rfl, rfl⟩, ⟨rfl, rfl⟩, ⟨rfl, rfl⟩⟩

/-- C6: when the workspace root contains no Snakefile, discovery checks
for the file, resolves with the empty task list, logs nothing, reveals
nothing and never invokes the external tool, whatever outcome that
invocation would have had. -/
theorem C6_missing_file_no_invocation (r : String) (ef : Bool) (so se : String) :
    getSnakemakeTasks ⟨Option.some r, false, ef, so, se⟩ =
      { tasks := [], logLines := [], revealed := false,
        checkedFileExists := true, invokedTool := false } :=
  rfl

/-- C7: on a successful invocation, discovery splits stdout on both bare
LF and CRLF line endings, skips zero-length lines, and uses each
surviving whole line verbatim as the task name: for any list of
line-break-free lines, each terminated by either ending, the produced
task names are exactly the non-empty lines in order. -/
theorem C7_line_splitting (ps : List (String × Bool)) (r : String)
    (h : ∀ p ∈ ps, ∀ c ∈ p.1.data, c ≠ '\n' ∧ c ≠ '\r') :
    (getSnakemakeTasks
        ⟨Option.some r, true, false, joinMixed ps, ""⟩).tasks.map
      SnakemakeTask.taskName =
      (ps.map Prod.fst).filter (fun l => l.length != 0) := by
  have hparse := parseTaskNames_join ps h
  have htasks : (getSnakemakeTasks
      ⟨Option.some r, true, false, joinMixed ps, ""⟩).tasks =
      (parseTaskNames (joinMixed ps)).map mkTask := rfl
  rw [htasks, hparse, List.map_map]
  have hcomp : (SnakemakeTask.taskName ∘ mkTask) = id := funext fun _ => rfl
  rw [hcomp, List.map_id]

/-- Witness for C7 on a mixed-endings output with a blank line and
names containing spaces (kept verbatim, untrimmed). -/
theorem C7_line_splitting_witness :
    (getSnakemakeTasks ⟨Option.some "/ws", true, false,
        joinMixed [("build all", false), ("", true), ("cleanup ", true)],
        ""⟩).tasks.map SnakemakeTask.taskName = ["build all", "cleanup "] := by
  rw [C7_line_splitting [("build all", false), ("", true), ("cleanup ", true)]
    "/ws" (by decide)]
  decide

/-- C8: a successful process exit returns both captured streams even
when stderr is non-empty — only a failed exit is a failure — and on
success a non-empty stderr is logged to the sink and the sink revealed
while the returned task list is the same as with an empty stderr. -/
theorem C8_stderr_advisory (r so se : String) (hse : 0 < se.length) :
    exec false so se = Except.ok { stdout := so, stderr := se } ∧
    (getSnakemakeTasks ⟨Option.some r, true, false, so, se⟩).tasks =
      (getSnakemakeTasks ⟨Option.some r, true, false, so, ""⟩).tasks ∧
    (getSnakemakeTasks ⟨Option.some r, true, false, so, se⟩).logLines = [se] ∧
    (getSnakemakeTasks ⟨Option.some r, true, false, so, se⟩).revealed = true := by
  refine ⟨rfl, rfl, ?_, ?_⟩ <;> simp [getSnakemakeTasks, exec, hse]

/-- Witness for C8 with a successful run whose stderr is "warning". -/
theorem C8_stderr_advisory_witness :
    exec false "a\nb\n" "warning" =
      Except.ok { stdout := "a\nb\n", stderr := "warning" } ∧
    (getSnakemakeTasks ⟨Option.some "/ws", true, false, "a\nb\n", "warning"⟩).tasks =
      (getSnakemakeTasks ⟨Option.some "/ws", true, false, "a\nb\n", ""⟩).tasks ∧
    (getSnakemakeTasks
        ⟨Option.some "/ws", true, false, "a\nb\n", "warning"⟩).logLines =
      ["warning"] ∧
    (getSnakemakeTasks
        ⟨Option.some "/ws", true, false, "a\nb\n", "warning"⟩).revealed = true :=
  C8_stderr_advisory "/ws" "a\nb\n" "warning" (by decide)

/-- C9: every task produced by any discovery pass has as its shell
command the literal string "snakemake " concatenated with its verbatim
name, with no quoting or escaping. -/
theorem C9_command_concat (env : Env) (t : SnakemakeTask)
    (ht : t ∈ (getSnakemakeTasks env).tasks) :
    t.commandLine = "snakemake " ++ t.taskName := by
  obtain ⟨root, fe, ef, so, se⟩ := env
  cases root with
  | none => simp [getSnakemakeTasks] at ht
  | some r =>
    cases fe with
    | false => simp [getSnakemakeTasks] at ht
    | true =>
      cases ef with
      | true => simp [getSnakemakeTasks, exec] at ht
      | false =>
        have hm : t ∈ (parseTaskNames so).map mkTask := ht
        obtain ⟨name, _, rfl⟩ := List.mem_map.1 hm
        rfl

/-- Witness for C9 at a concrete discovered task. -/
theorem C9_command_concat_witness :
    (mkTask "deploy").commandLine = "snakemake " ++ (mkTask "deploy").taskName :=
  C9_command_concat ⟨Option.some "/ws", true, false, "deploy\n", ""⟩
    (mkTask "deploy") (by decide)

/-- C10: activation with no workspace root registers neither the watcher
nor the task provider, and a discovery pass that reads an unset
workspace root at its start resolves with the empty task list without
checking for the definition file or invoking the external tool,
whatever the rest of the environment holds. -/
theorem C10_no_root (fe ef : Bool) (so se : String) :
    activate Option.none =
      { watcherRegistered := false, providerRegistered := false } ∧
    getSnakemakeTasks ⟨Option.none, fe, ef, so, se⟩ =
      { tasks := [], logLines := [], revealed := false,
        checkedFileExists := false, invokedTool := false } :=
  ⟨rfl, rfl⟩

end Snakemake
